import Mathlib

/-!
Verification of the core ranking-and-selection engine of the course/club
recommendation backend (`Project/backend/app/services/`).

Python source functions are shallowly embedded as executable Lean
definitions over `String`, `List` and `ℚ` (floats are modelled by exact
rationals; numpy arrays by lists; python sets by lists used only through
membership).  Each definition carries a comment naming the source
function it embeds.  Python's ASCII-relevant string behaviour is used
(`str.upper`/`str.lower` on ASCII, `\s` on ASCII whitespace), matching
the course-code and tag data the services operate on.
-/

namespace Rec

/-- ASCII uppercase letter test (regex class `[A-Z]`). -/
def isUpperAlpha (c : Char) : Bool :=
  'A' ≤ c && c ≤ 'Z'

/-- ASCII digit test (regex class `\d`). -/
def isDigitChar (c : Char) : Bool :=
  '0' ≤ c && c ≤ '9'

/-- ASCII whitespace, the characters matched by python's regex `\s`
on ASCII text: space, tab, newline, carriage return, vertical tab, form feed. -/
def isPySpace (c : Char) : Bool :=
  c = ' ' || c = '\t' || c = '\n' || c = '\r' || c = '\x0b' || c = '\x0c'

/-- Test whether `pat` is an initial segment of `cs`. -/
def startsWithChars : List Char → List Char → Bool
  | [], _ => true
  | _ :: _, [] => false
  | p :: ps, c :: cs => p = c && startsWithChars ps cs

/-- Whether `pat` occurs contiguously somewhere in `cs`
(python's `pat in s` on strings). -/
def containsChars (pat : List Char) : List Char → Bool
  | [] => startsWithChars pat []
  | c :: cs => startsWithChars pat (c :: cs) || containsChars pat cs

/-- Python `str.strip()` on a character list: remove leading and trailing
whitespace. -/
def stripChars (cs : List Char) : List Char :=
  ((cs.dropWhile isPySpace).reverse.dropWhile isPySpace).reverse

/-- Python `str.upper()` on an ASCII character: map `a..z` to `A..Z`. -/
def upperChar (c : Char) : Char :=
  if 'a' ≤ c && c ≤ 'z' then Char.ofNat (c.toNat - 32) else c

/-- Python `str.lower()` on an ASCII character: map `A..Z` to `a..z`. -/
def lowerChar (c : Char) : Char :=
  if 'A' ≤ c && c ≤ 'Z' then Char.ofNat (c.toNat + 32) else c

/-- Anchored match of the pattern `^([A-Z]{2,4})\s*(\d{3}[A-Z]?)$` from
`prereq_checker.normalize_course_code`.  Because the letter group is
followed by `\s*` and digits, a successful match must consume every
leading uppercase letter, so the regex is equivalent to this
deterministic parse.  Returns the two capture groups on success. -/
def matchCourseCode (cs : List Char) : Option (List Char × List Char) :=
  let letters := cs.takeWhile isUpperAlpha
  let rest := cs.dropWhile isUpperAlpha
  if 2 ≤ letters.length && letters.length ≤ 4 then
    let afterWs := rest.dropWhile isPySpace
    match afterWs with
    | d1 :: d2 :: d3 :: tail =>
      if isDigitChar d1 && isDigitChar d2 && isDigitChar d3 then
        match tail with
        | [] => some (letters, [d1, d2, d3])
        | [t] => if isUpperAlpha t then some (letters, [d1, d2, d3, t]) else none
        | _ => none
      else none
    | _ => none
  else none

/-- Embeds `prereq_checker.normalize_course_code`:
strip, uppercase, then reformat `DEPT␣NNN[L]` if the code matches the
canonical pattern, else return the stripped uppercased string unchanged. -/
def normalize_course_code (code : String) : String :=
  let cleaned := (stripChars code.toList).map upperChar
  match matchCourseCode cleaned with
  | some (dept, num) => String.mk (dept ++ [' '] ++ num)
  | none => String.mk cleaned

example : normalize_course_code "cs124" = "CS 124" := by decide
example : normalize_course_code "CS 124" = "CS 124" := by decide
example : normalize_course_code "" = "" := by decide
example : normalize_course_code " math  221 " = "MATH 221" := by decide
example : normalize_course_code "CS 1234" = "CS 1234" := by decide
example : normalize_course_code "cs374a" = "CS 374A" := by decide

/-- Case-insensitive match of a (lowercase) word against the head of `cs`;
returns the remainder on success. -/
def matchWordCI : List Char → List Char → Option (List Char)
  | [], cs => some cs
  | _ :: _, [] => none
  | p :: ps, c :: cs => if lowerChar c = p then matchWordCI ps cs else none

/-- Match `\s+` at the head of `cs` (at least one whitespace character,
maximal run); returns the remainder on success. -/
def matchWs1 : List Char → Option (List Char)
  | [] => none
  | c :: cs => if isPySpace c then some (cs.dropWhile isPySpace) else none

/-- Match the separator regex `\s+word\s+` (case-insensitive, as in
`re.split(r'\s+or\s+', …, flags=re.IGNORECASE)`) at the head of `cs`.
The greedy `\s+` runs are deterministic here because whitespace characters
can never start the word. -/
def matchSep (word : List Char) (cs : List Char) : Option (List Char) :=
  match matchWs1 cs with
  | none => none
  | some r1 =>
    match matchWordCI word r1 with
    | none => none
    | some r2 => matchWs1 r2

/-- Worker for `re.split(r'\s+word\s+', s, flags=re.IGNORECASE)`:
scan left to right, splitting at each leftmost separator match.
`acc` holds the current segment reversed; `fuel ≥ cs.length` keeps the
recursion structural (a separator match always consumes characters). -/
def splitSepGo (word : List Char) : Nat → List Char → List Char → List (List Char)
  | 0, acc, cs => [acc.reverse ++ cs]
  | fuel + 1, acc, cs =>
    match cs with
    | [] => [acc.reverse]
    | c :: cs' =>
      match matchSep word cs with
      | some rest => acc.reverse :: splitSepGo word fuel [] rest
      | none => splitSepGo word fuel (c :: acc) cs'

/-- Embeds `re.split(r'\s+word\s+', s, flags=re.IGNORECASE)` for a plain
lowercase `word`. -/
def reSplitSep (word : String) (s : String) : List String :=
  (splitSepGo word.toList s.toList.length [] s.toList).map String.mk

example : reSplitSep "or" "CS 124 or CS 125" = ["CS 124", "CS 125"] := by decide
example : reSplitSep "and" "CS 124 and MATH 221" = ["CS 124", "MATH 221"] := by decide
example : reSplitSep "or" "A or  or B" = ["A", "or B"] := by decide

/-- Python `sub in s` (substring containment) for strings. -/
def strContains (s : String) (sub : String) : Bool :=
  containsChars sub.toList s.toList

/-- Python `s.strip()` as a `String` function. -/
def pyStrip (s : String) : String := String.mk (stripChars s.toList)

/-- Python `s.lower()` as a `String` function (ASCII). -/
def pyLower (s : String) : String := String.mk (s.toList.map lowerChar)

/-- Embeds `prereq_checker.parse_prerequisite_string`: split a textual
prerequisite into a list of OR-groups.  Note the source splits `"A or B"`
into the singleton groups `[["A"], ["B"]]` (each `or`-alternative becomes
its own group), and likewise for `and`. -/
def parse_prerequisite_string (s : String) : List (List String) :=
  if pyStrip s = "" then []
  else
    let t := pyStrip s
    if strContains (pyLower t) " or " then
      (reSplitSep "or" t).map (fun part => [normalize_course_code (pyStrip part)])
    else if strContains (pyLower t) " and " then
      (reSplitSep "and" t).map (fun part => [normalize_course_code (pyStrip part)])
    else
      let normalized := normalize_course_code t
      if normalized ≠ "" then [[normalized]] else []

example : parse_prerequisite_string "CS 124 or CS 125" = [["CS 124"], ["CS 125"]] := by decide
example : parse_prerequisite_string "CS 124 and MATH 221" = [["CS 124"], ["MATH 221"]] := by decide
example : parse_prerequisite_string "CS 124" = [["CS 124"]] := by decide
example : parse_prerequisite_string "  " = [] := by decide

/-- Loop body of `prereq_checker.check_prerequisites_met`: walk the
prerequisite entries, accumulating `missing`; stop satisfied as soon as any
course of any parsed OR-group (or any direct code) is completed. -/
def checkPrereqLoop (completedNorm : List String) :
    List String → List String → Bool × List String
  | missing, [] => (false, missing)
  | missing, p :: ps =>
    let orGroups := parse_prerequisite_string p
    if orGroups ≠ [] then
      if orGroups.any (fun g =>
          g.any (fun c => completedNorm.contains (normalize_course_code c))) then
        (true, missing)
      else
        checkPrereqLoop completedNorm (missing ++ orGroups.headD []) ps
    else
      let n := normalize_course_code p
      if completedNorm.contains n then (true, missing)
      else checkPrereqLoop completedNorm (missing ++ [n]) ps

/-- Embeds `prereq_checker.check_prerequisites_met` (string entries only —
the function is always called with lists of strings).  The python
`completed_courses` set is modelled as a list used through membership. -/
def check_prerequisites_met (prerequisites : List String)
    (completed_courses : List String) : Bool × List String :=
  if prerequisites = [] then (true, [])
  else
    let completedNorm := completed_courses.map normalize_course_code
    checkPrereqLoop completedNorm [] prerequisites

/-- Embeds `prereq_checker.can_take_course`; `prerequisites` stands for
`course_data.get('prerequisites', [])`, the only field the source reads. -/
def can_take_course (_course_code : String) (completed_courses : List String)
    (prerequisites : List String) : Bool × List String :=
  check_prerequisites_met prerequisites completed_courses

example : check_prerequisites_met [] [] = (true, []) := by decide
example : (check_prerequisites_met ["CS 124 or CS 125"] ["CS 125"]).1 = true := by decide
example : (check_prerequisites_met ["CS 124 or CS 125"] []).1 = false := by decide
example : (check_prerequisites_met ["CS 124 and MATH 221"] ["CS 124"]).1 = true := by decide
example : (check_prerequisites_met ["CS 124", "MATH 221"] ["CS 124"]).1 = true := by decide
example : (check_prerequisites_met ["CS 124", "MATH 221"] ["math221"]).1 = true := by decide

/-- Count how many of the `milestones` are in the normalized completed set,
as in `year_detector.detect_student_year`'s
`sum(1 for course in milestones if normalize_course_code(course) in completed_set)`. -/
def milestoneCount (completedNorm : List String) (milestones : List String) : Nat :=
  milestones.countP (fun m => completedNorm.contains (normalize_course_code m))

/-- Embeds `year_detector.detect_student_year`: milestone-count heuristic
returning one of `first_year`, `second_year`, `third_year`, `fourth_year`. -/
def detect_student_year (completed_courses : List String) : String :=
  let completedSet := completed_courses.map normalize_course_code
  if completedSet.contains (normalize_course_code "CS 421") then "fourth_year"
  else
    let thirdYearCompleted := milestoneCount completedSet ["CS 341", "CS 357", "CS 374"]
    if 2 ≤ thirdYearCompleted then "fourth_year"
    else if 1 ≤ thirdYearCompleted then "third_year"
    else
      let secondYearCompleted := milestoneCount completedSet ["CS 225", "CS 233", "CS 361"]
      let mathPhysicsSecond :=
        milestoneCount completedSet ["MATH 241", "MATH 257", "PHYS 211", "PHYS 212"]
      if 2 ≤ secondYearCompleted ∨ (1 ≤ secondYearCompleted ∧ 2 ≤ mathPhysicsSecond) then
        "third_year"
      else if 1 ≤ secondYearCompleted ∨ 1 ≤ mathPhysicsSecond then "second_year"
      else
        let firstYearCs := milestoneCount completedSet ["CS 124", "CS 128", "CS 173"]
        let firstYearMath := milestoneCount completedSet ["MATH 221", "MATH 231"]
        if 2 ≤ firstYearCs ∧ 1 ≤ firstYearMath then "second_year"
        else if 1 ≤ firstYearCs ∨ 1 ≤ firstYearMath then "first_year"
        else "first_year"

/-- Order on the four class-standing labels, for stating monotonicity:
`first_year < second_year < third_year < fourth_year`. -/
def yearRank (year : String) : Nat :=
  if year = "fourth_year" then 4
  else if year = "third_year" then 3
  else if year = "second_year" then 2
  else if year = "first_year" then 1
  else 0

example : detect_student_year ["CS 421"] = "fourth_year" := by decide
example : detect_student_year [] = "first_year" := by decide
example : detect_student_year ["CS 124", "CS 128", "MATH 221"] = "second_year" := by decide
example : detect_student_year ["CS 341", "CS 374"] = "fourth_year" := by decide
example : detect_student_year ["CS 357"] = "third_year" := by decide
example : detect_student_year ["CS 421", "CS 341"] = "fourth_year" := by decide
example : detect_student_year ["PHYS 211"] = "second_year" := by decide

/-- Embeds `TechnicalRecommender._get_course_level` (same code also appears
as `get_course_level` in `recommender.py`): prefix-match
`[A-Z]{2,4}\s*(\d)(\d{2})` against the uppercased code and return the first
digit, defaulting to 5 when the pattern does not match.  As for
`matchCourseCode`, the greedy letter group must consume every leading
letter, so the regex is equivalent to this deterministic parse. -/
def get_course_level (course_code : String) : Nat :=
  let cs := course_code.toList.map upperChar
  let letters := cs.takeWhile isUpperAlpha
  let rest := cs.dropWhile isUpperAlpha
  if 2 ≤ letters.length && letters.length ≤ 4 then
    match rest.dropWhile isPySpace with
    | d1 :: d2 :: d3 :: _ =>
      if isDigitChar d1 && isDigitChar d2 && isDigitChar d3 then
        d1.toNat - '0'.toNat
      else 5
    | _ => 5
  else 5

example : get_course_level "CS 446" = 4 := by decide
example : get_course_level "CS 124" = 1 := by decide
example : get_course_level "cs225" = 2 := by decide
example : get_course_level "" = 5 := by decide

/-- Embeds the `year_to_level.get(student_year, 2)` lookup of
`TechnicalRecommender.recommend_courses` (lines 402–408): the dict keys are
`freshman`/`sophomore`/`junior`/`senior` and the default is 2. -/
def year_to_level_get (student_year : String) : Nat :=
  if student_year = "freshman" then 1
  else if student_year = "sophomore" then 2
  else if student_year = "junior" then 3
  else if student_year = "senior" then 4
  else 2

/-- The ceiling `max_level_allowed = year_to_level.get(student_year, 2) + 1` from
`TechnicalRecommender.recommend_courses`. -/
def max_level_allowed (student_year : String) : Nat :=
  year_to_level_get student_year + 1

/-- The hard level filter of `TechnicalRecommender.recommend_courses`
(lines 410–413): keep each eligible course whose level is at most
`max_level_allowed`. -/
def level_filter (eligible_courses : List String) (student_year : String) : List String :=
  eligible_courses.filter (fun c => get_course_level c ≤ max_level_allowed student_year)

/-- Embeds `recommender.py`'s `is_appropriate_level` (lines 167–177), which
operates on `(course_code, is_required, postrequisite_count)` of an
eligible-course item: a 400-level course passes only if required or with
more than 5 postrequisites; every other level passes. -/
def is_appropriate_level (course_code : String) (is_required : Bool)
    (postrequisite_count : Nat) : Bool :=
  if course_code = "" then true
  else
    let level := get_course_level course_code
    if level = 4 then is_required || decide (5 < postrequisite_count)
    else true

example : max_level_allowed "fourth_year" = 3 := by decide
example : max_level_allowed "first_year" = 3 := by decide
example : level_filter ["CS 446"] "fourth_year" = [] := by decide
example : is_appropriate_level "CS 446" false 6 = true := by decide
example : is_appropriate_level "CS 446" false 5 = false := by decide

/-- STEP 2 of `TechnicalRecommender.recommend_courses` (lines 425–431):
cosine similarity per eligible course when `interests` is non-empty,
otherwise `np.ones(len) * 0.1`.  `simToQuery i` stands for the cosine
similarity of eligible course `i` against the transformed query vector. -/
def interest_scores (interests : String) (simToQuery : Nat → ℚ) (n : Nat) : List ℚ :=
  if interests ≠ "" then (List.range n).map simToQuery
  else List.replicate n (1 / 10)

/-- STEP 4 of `TechnicalRecommender.recommend_courses`:
`boosted_scores = interest_scores * rule_boosts` (elementwise). -/
def boosted_scores (iScores ruleBoosts : List ℚ) : List ℚ :=
  List.zipWith (· * ·) iScores ruleBoosts

/-- Tag-match boost of `ClubRecommender.recommend_clubs` (lines 276–281):
`0.2 *` the number of merged tags whose lowercased text occurs as a
substring of the record's lowercased `clean_tags`; the boost array is left
at zero when no merged tags exist. -/
def club_tag_boost (merged_tags : List String) (clean_tags : String) : ℚ :=
  if merged_tags ≠ [] then
    (1 / 5) *
      (merged_tags.countP
        (fun tag => containsChars (pyLower tag).toList (pyLower clean_tags).toList) : ℚ)
  else 0

/-- Tag-avoidance penalty of `ClubRecommender.recommend_clubs`
(lines 284–289): `-0.3 *` the number of avoided tags occurring in the
record's lowercased `clean_tags`. -/
def club_tag_penalty (avoid_tags : List String) (clean_tags : String) : ℚ :=
  if avoid_tags ≠ [] then
    (-3 / 10) *
      (avoid_tags.countP
        (fun tag => containsChars (pyLower tag).toList (pyLower clean_tags).toList) : ℚ)
  else 0

/-- Combined per-record club score (`scores = sims + tag_boost + tag_penalty`). -/
def club_record_score (sim : ℚ) (merged_tags avoid_tags : List String)
    (clean_tags : String) : ℚ :=
  sim + club_tag_boost merged_tags clean_tags + club_tag_penalty avoid_tags clean_tags

/-- Python `s.upper()` as a `String` function (ASCII). -/
def pyUpper (s : String) : String := String.mk (s.toList.map upperChar)

/-- GenEd-category matching boost of `GenedRecommender.recommend_courses`
(lines 199–205): `0.15 *` the number of preferences whose uppercased text
occurs in the record's uppercased `gened` category string. -/
def gened_pref_boost (gened_preferences : List String) (gened : String) : ℚ :=
  if gened_preferences ≠ [] then
    (3 / 20) *
      (gened_preferences.countP
        (fun pref => containsChars (pyUpper pref).toList (pyUpper gened).toList) : ℚ)
  else 0

/-- GPA boost of `GenedRecommender.recommend_courses` (lines 193–197). -/
def gened_gpa_boost (gpa min_gpa : ℚ) : ℚ :=
  if min_gpa ≤ gpa then (1 / 5) * (gpa - min_gpa) else 0

/-- Subject-avoidance penalty of `GenedRecommender.recommend_courses`
(lines 208–213). -/
def gened_subject_penalty (avoid_subjects : List String) (subject : String) : ℚ :=
  if avoid_subjects ≠ [] then
    if (avoid_subjects.map pyUpper).contains (pyUpper subject) then -1 / 2 else 0
  else 0

/-- Combined per-record gened score
(`scores = sims + gpa_boost + gened_boost + subject_penalty`). -/
def gened_record_score (sim : ℚ) (gpa min_gpa : ℚ) (gened_preferences : List String)
    (gened : String) (avoid_subjects : List String) (subject : String) : ℚ :=
  sim + gened_gpa_boost gpa min_gpa + gened_pref_boost gened_preferences gened +
    gened_subject_penalty avoid_subjects subject

example : club_tag_boost ["Technology"] "technology business" = 1 / 5 := by
  have h : (["Technology"].countP
      (fun tag => containsChars (pyLower tag).data
        (pyLower "technology business").data)) = 1 := by decide
  rw [club_tag_boost]
  simp [h]

example : gened_pref_boost ["HUM"] "HUM" = 3 / 20 := by
  have h : (["HUM"].countP
      (fun pref => containsChars (pyUpper pref).data (pyUpper "HUM").data)) = 1 := by
    decide
  rw [gened_pref_boost]
  simp [h]

/-- Embeds `np.max` of a non-empty list (the code only calls it with the
selected set non-empty); 0 on the empty list. -/
def listMax : List ℚ → ℚ
  | [] => 0
  | x :: xs => xs.foldl max x

/-- Embeds `np.argmax`: position of the first maximum of a list; 0 on the empty
list (where numpy raises instead — callers guard non-emptiness). -/
def argmaxPos : List ℚ → Nat
  | [] => 0
  | x :: xs =>
    if xs = [] then 0
    else if x < xs.getD (argmaxPos xs) 0 then argmaxPos xs + 1 else 0

example : argmaxPos [3, 5, 5] = 1 := by decide
example : argmaxPos [5, 3, 5] = 0 := by decide
example : argmaxPos [1] = 0 := by decide

/-- One candidate's MMR objective
`lambda_param * relevance - (1 - lambda_param) * max_sim` from
`_mmr_diversify`; `sim c s` stands for the cosine similarity
`cosine_similarity(X[c:c+1], X[s:s+1])` of rows `c` and `s`. -/
def mmrObjective (scores : List ℚ) (sim : Nat → Nat → ℚ) (lam : ℚ)
    (selected : List Nat) (c : Nat) : ℚ :=
  let relevance := scores.getD c 0
  let maxSim := if selected ≠ [] then listMax (selected.map (fun s => sim c s)) else 0
  lam * relevance - (1 - lam) * maxSim

/-- The `while len(selected) < topk and len(candidates) > 0` loop of
`_mmr_diversify`: compute the MMR objective of every remaining candidate,
append the first-position argmax to `selected` and delete it (by position,
`np.delete(candidates, best_idx)`) from `candidates`.  `fuel` bounds the
iteration count to keep the recursion structural; every call supplies
`fuel ≥ topk - selected.length`, which the loop guard makes sufficient. -/
def mmrLoop (scores : List ℚ) (sim : Nat → Nat → ℚ) (lam : ℚ) (topk : Nat) :
    Nat → List Nat → List Nat → List Nat
  | 0, selected, _ => selected
  | fuel + 1, selected, candidates =>
    if selected.length < topk ∧ candidates ≠ [] then
      let mmrScores := candidates.map (mmrObjective scores sim lam selected)
      let bestIdx := argmaxPos mmrScores
      let bestCandidate := candidates.getD bestIdx 0
      mmrLoop scores sim lam topk fuel (selected ++ [bestCandidate])
        (candidates.eraseIdx bestIdx)
    else selected

/-- Embeds `TechnicalRecommender._mmr_diversify` (the nested
`mmr_diversify` of `club_recommender.recommend_clubs` and
`gened_recommender.recommend_courses` is the same code): select the
highest-scoring index first, then greedily extend by MMR objective.
Returns `none` when `scores` is empty, where `np.argmax` raises
`ValueError`. -/
def mmr_diversify (scores : List ℚ) (sim : Nat → Nat → ℚ) (topk : Nat)
    (lam : ℚ) : Option (List Nat) :=
  if scores = [] then none
  else
    some (mmrLoop scores sim lam topk topk [argmaxPos scores]
      ((List.range scores.length).filter (fun c => c ≠ argmaxPos scores)))

/-- The specification's plain top-k selection: repeatedly take the
remaining candidate with the highest relevance score, ties broken by the
lowest candidate index (first-seen-wins), until `k` picks are made or the
candidates run out. -/
def topkGreedy (scores : List ℚ) : Nat → List Nat → List Nat
  | 0, _ => []
  | _ + 1, [] => []
  | k + 1, c :: cs =>
    (c :: cs).getD (argmaxPos ((c :: cs).map (fun i => scores.getD i 0))) 0 ::
      topkGreedy scores k
        ((c :: cs).eraseIdx (argmaxPos ((c :: cs).map (fun i => scores.getD i 0))))

/-- Typo correction loop shared by `ClubRecommender._fix_typo` and
`GenedRecommender._fix_typo`: for each token that is non-empty after
stripping, query the external fuzzy matcher and keep the match when its
score exceeds 70, the token otherwise; whitespace-only tokens are dropped.
`extractOne` stands for `fuzzywuzzy.process.extractOne`; a `none` reply
means the python `match, score = process.extractOne(...)` unpacking raises
`TypeError`, propagated here as `none`. -/
def fixTypoTokens (extractOne : String → List String → Option (String × Nat))
    (vocab : List String) : List String → Option (List String)
  | [] => some []
  | word :: rest =>
    if pyStrip word ≠ "" then
      match extractOne word vocab with
      | none => none
      | some (m, score) =>
        match fixTypoTokens extractOne vocab rest with
        | none => none
        | some cleaned => some ((if 70 < score then m else word) :: cleaned)
    else fixTypoTokens extractOne vocab rest

/-- Embeds `ClubRecommender._fix_typo` on a list argument: lowercase every item,
then run the correction loop. -/
def fix_typo_list (extractOne : String → List String → Option (String × Nat))
    (tokens : List String) (vocab : List String) : Option (List String) :=
  fixTypoTokens extractOne vocab (tokens.map pyLower)

/-- Modelled from the spec: the external fuzzy matcher
`fuzzywuzzy.process.extractOne`, whose code is not part of this repository.
Only the behaviour the claims depend on is modelled: with an empty
vocabulary it returns `None` (python `max` over no candidates), and with a
non-empty vocabulary it returns some (match, score) pair — here coarsely an
exact vocabulary hit with score 100, else the first entry with score 0. -/
def extractOneModel (word : String) (vocab : List String) : Option (String × Nat) :=
  match vocab with
  | [] => none
  | v :: _ => if vocab.contains word then some (word, 100) else some (v, 0)

/-- The non-zero-interest filter (STEP 4, lines 447–456 of
`technical_recommender.py`) on the two parallel arrays the later steps
read: when `interests` is non-empty and at least one eligible course has
strictly positive interest score, restrict both `interest_scores` and
`boosted_scores` to the positive-interest positions; otherwise leave both
unchanged. -/
def step4_filter (interests : String) (iScores boosted : List ℚ) :
    List ℚ × List ℚ :=
  if interests ≠ "" ∧ 0 < iScores.countP (fun s => decide (0 < s)) then
    (((iScores.zip boosted).filter (fun p => decide (0 < p.1))).map Prod.fst,
     ((iScores.zip boosted).filter (fun p => decide (0 < p.1))).map Prod.snd)
  else (iScores, boosted)

/-- STEP 4 + STEP 5 + the `interest_score` field of the formatted results:
filter by non-zero interest, run MMR on the filtered boosted scores
(`min(topk, len)` picks) and report the interest score of every selected
index (`result['interest_score'] = interest_scores[top_indices]`).
`none` models the `np.argmax` failure on an empty array. -/
def reported_interest_scores (interests : String) (iScores boosted : List ℚ)
    (sim : Nat → Nat → ℚ) (topk : Nat) (lam : ℚ) : Option (List ℚ) :=
  let fI := (step4_filter interests iScores boosted).1
  let fB := (step4_filter interests iScores boosted).2
  match mmr_diversify fB sim (min topk fB.length) lam with
  | none => none
  | some idxs => some (idxs.map (fun i => fI.getD i 0))

/-! ### C9: course-code normalization -/

/-- C9: `normalize_course_code` maps `"cs124"` and `"CS 124"` both to
`"CS 124"`; a successful canonical-pattern match (2–4 uppercase letters,
optional whitespace, 3 digits, optional trailing letter) is reformatted
with a single space; and every input that does not match the canonical
pattern — including the empty string — is returned stripped and uppercased
but otherwise unchanged (the function is total, it never fails). -/
theorem normalize_course_code_spec :
    normalize_course_code "cs124" = "CS 124" ∧
    normalize_course_code "CS 124" = "CS 124" ∧
    normalize_course_code "" = "" ∧
    (∀ (s : String) (dept num : List Char),
      matchCourseCode ((stripChars s.toList).map upperChar) = some (dept, num) →
      normalize_course_code s = String.mk (dept ++ [' '] ++ num)) ∧
    (∀ s : String,
      matchCourseCode ((stripChars s.toList).map upperChar) = none →
      normalize_course_code s = String.mk ((stripChars s.toList).map upperChar)) := by
  refine ⟨by decide, by decide, by decide, ?_, ?_⟩
  · intro s dept num h
    simp only [String.toList] at h
    simp [normalize_course_code, h]
  · intro s h
    simp only [String.toList] at h
    simp [normalize_course_code, h]

/-- Witness for C9 at concrete inputs: `"cs374a"` matches the pattern and
`"HELLO!"` does not. -/
theorem normalize_course_code_spec_witness :
    normalize_course_code "cs374a" = String.mk (['C', 'S'] ++ [' '] ++ ['3', '7', '4', 'A']) ∧
    normalize_course_code "HELLO!" =
      String.mk ((stripChars "HELLO!".toList).map upperChar) :=
  ⟨normalize_course_code_spec.2.2.2.1 "cs374a" ['C', 'S'] ['3', '7', '4', 'A'] (by decide),
   normalize_course_code_spec.2.2.2.2 "HELLO!" (by decide)⟩

/-! ### C1: prerequisite eligibility semantics -/

/-- One iteration's satisfaction test in
`check_prerequisites_met`: a prerequisite entry is satisfied when any
course of any parsed OR-group (or, for an unparsable entry, the normalized
entry itself) is in the normalized completed set. -/
def prereqOptionSatisfied (completedNorm : List String) (p : String) : Bool :=
  let orGroups := parse_prerequisite_string p
  if orGroups ≠ [] then
    orGroups.any (fun g => g.any (fun c => completedNorm.contains (normalize_course_code c)))
  else completedNorm.contains (normalize_course_code p)

theorem checkPrereqLoop_fst (completedNorm ps : List String) :
    ∀ missing,
      (checkPrereqLoop completedNorm missing ps).1 =
        ps.any (prereqOptionSatisfied completedNorm) := by
  induction ps with
  | nil => intro missing; simp [checkPrereqLoop]
  | cons p ps ih =>
    intro missing
    simp only [checkPrereqLoop, List.any_cons, prereqOptionSatisfied]
    by_cases hg : parse_prerequisite_string p ≠ []
    · simp only [if_pos hg]
      cases hsat : (parse_prerequisite_string p).any
          (fun g => g.any (fun c => completedNorm.contains (normalize_course_code c)))
      · simp [ih]
      · simp
    · simp only [if_neg hg]
      cases hc : completedNorm.contains (normalize_course_code p)
      · simp [ih]
      · simp

/-- C1 counterexample: the source treats the whole prerequisite list as a
disjunction.  With prerequisites `[["CS 124"], ["MATH 221"]]` — stored by
the graph as the two entries `["CS 124", "MATH 221"]`, and equivalently
parsed from the single entry `["CS 124 and MATH 221"]` — and only
`"CS 124"` completed, the checker reports the course eligible even though
`"MATH 221"` is not completed, contradicting AND-across-groups. -/
theorem check_prerequisites_and_counterexample :
    (check_prerequisites_met ["CS 124", "MATH 221"] ["CS 124"]).1 = true ∧
    (check_prerequisites_met ["CS 124 and MATH 221"] ["CS 124"]).1 = true ∧
    ¬ "MATH 221" ∈ ["CS 124"].map normalize_course_code := by
  refine ⟨by decide, by decide, by decide⟩

/-- C1 amended: eligibility is a disjunction over the prerequisite
entries, OR within each parsed group and OR *across* groups/entries as
well: a course with an empty prerequisite list is always eligible, and
otherwise it is eligible iff at least one prerequisite alternative is in
the completed set.  In particular `[["CS 124","CS 125"]]` is eligible
given `{"CS 125"}` and not given `{}`, but `[["CS 124"],["MATH 221"]]` is
eligible as soon as either course is completed. -/
theorem check_prerequisites_met_or_semantics :
    (∀ prerequisites completed : List String,
      (check_prerequisites_met prerequisites completed).1 =
        (prerequisites.isEmpty ||
          prerequisites.any
            (prereqOptionSatisfied (completed.map normalize_course_code)))) ∧
    (∀ completed : List String, (check_prerequisites_met [] completed).1 = true) ∧
    (check_prerequisites_met ["CS 124 or CS 125"] ["CS 125"]).1 = true ∧
    (check_prerequisites_met ["CS 124 or CS 125"] []).1 = false ∧
    (check_prerequisites_met ["CS 124", "MATH 221"] ["CS 124", "MATH 221"]).1 = true := by
  refine ⟨?_, ?_, by decide, by decide, by decide⟩
  · intro prerequisites completed
    by_cases hp : prerequisites = []
    · simp [hp, check_prerequisites_met]
    · simp only [check_prerequisites_met, hp, if_false,
        List.isEmpty_eq_false_iff_exists_mem]
      rw [checkPrereqLoop_fst]
      simp [List.isEmpty_iff, hp]
  · intro completed
    simp [check_prerequisites_met]

/-! ### C3: the hard level ceiling of the technical recommender -/

/-- C3 (code bug evidence): `detect_student_year` returns
`"fourth_year"`/`"third_year"`/… while the `year_to_level` dict of
`TechnicalRecommender.recommend_courses` only has the keys
`"freshman"`/`"sophomore"`/`"junior"`/`"senior"`, so the lookup always
falls back to the default 2 and the hard ceiling is the constant 3 for
every inferred year.  At the failing input — a student with completed
`["CS 421"]` (inferred `fourth_year`) and the 400-level eligible course
`"CS 446"` — the filter removes the course, although the specified ceiling
`year + 1 = 5` admits it; the claim's 400-level exception
(required / postrequisite count > 5) exists only in `recommender.py`'s
`is_appropriate_level`, not in this filter. -/
theorem level_ceiling_constant_code_bug :
    detect_student_year ["CS 421"] = "fourth_year" ∧
    max_level_allowed "first_year" = 3 ∧
    max_level_allowed "second_year" = 3 ∧
    max_level_allowed "third_year" = 3 ∧
    max_level_allowed "fourth_year" = 3 ∧
    get_course_level "CS 446" = 4 ∧
    level_filter ["CS 446"] (detect_student_year ["CS 421"]) = [] ∧
    is_appropriate_level "CS 446" false 6 = true ∧
    is_appropriate_level "CS 446" false 5 = false := by
  refine ⟨by decide, by decide, by decide, by decide, by decide, by decide, by decide,
    by decide, by decide⟩

/-! ### Generic list helpers -/

theorem getD_of_lt {α : Type} (l : List α) (i : Nat) (d : α) (h : i < l.length) :
    l.getD i d = l[i] := by
  simp [List.getD_eq_getElem?_getD, List.getElem?_eq_getElem h]

theorem getD_mem {α : Type} (l : List α) (i : Nat) (d : α) (h : i < l.length) :
    l.getD i d ∈ l := by
  rw [getD_of_lt l i d h]
  exact List.getElem_mem h

theorem zipWith_replicate_left {α β : Type} (f : α → α → β) (a : α) :
    ∀ (l : List α) (n : Nat), l.length = n →
      List.zipWith f (List.replicate n a) l = l.map (f a)
  | [], _, h => by subst h; simp
  | x :: xs, _, rfl => by
    simpa [List.replicate_succ] using zipWith_replicate_left f a xs xs.length rfl

/-! ### C4: empty interests fall back to a uniform 0.1 score -/

/-- C4: with an empty interests string the technical recommender's scoring
step is total (no query vectorization is attempted) and gives every
eligible course the identical positive score `0.1 = 1/10`, so the combined
score of each course is just `0.1` times its rule boost — ranking is
driven purely by the rule-based boosts. -/
theorem empty_interests_uniform_scores (simToQuery : Nat → ℚ) (n : Nat)
    (ruleBoosts : List ℚ) :
    interest_scores "" simToQuery n = List.replicate n (1 / 10) ∧
    (∀ i, i < n → (interest_scores "" simToQuery n).getD i 0 = 1 / 10) ∧
    (0 : ℚ) < 1 / 10 ∧
    (ruleBoosts.length = n →
      boosted_scores (interest_scores "" simToQuery n) ruleBoosts =
        ruleBoosts.map (fun b => (1 / 10) * b)) := by
  have hrep : interest_scores "" simToQuery n = List.replicate n (1 / 10) := by
    simp [interest_scores]
  refine ⟨hrep, ?_, by norm_num, ?_⟩
  · intro i hi
    rw [hrep, getD_of_lt _ _ _ (by simpa using hi)]
    simp
  · intro hlen
    rw [hrep, boosted_scores, zipWith_replicate_left _ _ _ _ hlen]

/-- Witness for C4 at `n = 2`, constant similarity oracle and rule boosts
`[2, 3]`. -/
theorem empty_interests_uniform_scores_witness :
    interest_scores "" (fun _ => 0) 2 = List.replicate 2 (1 / 10) ∧
    (∀ i, i < 2 → (interest_scores "" (fun _ => 0) 2).getD i 0 = 1 / 10) ∧
    (0 : ℚ) < 1 / 10 ∧
    (([2, 3] : List ℚ).length = 2 →
      boosted_scores (interest_scores "" (fun _ => 0) 2) [2, 3] =
        ([2, 3] : List ℚ).map (fun b => (1 / 10) * b)) :=
  empty_interests_uniform_scores (fun _ => 0) 2 [2, 3]

/-! ### C5: the year classifier's outputs -/

/-- C5 counterexample: a completed set holding the capstone `CS 421`
together with exactly one third-year milestone (`CS 341`) yields
`fourth_year`, not `third_year`, so "exactly one of them yields
third_year" fails as stated (the capstone check fires first). -/
theorem detect_year_one_milestone_counterexample :
    milestoneCount (["CS 421", "CS 341"].map normalize_course_code)
      ["CS 341", "CS 357", "CS 374"] = 1 ∧
    detect_student_year ["CS 421", "CS 341"] = "fourth_year" ∧
    ("fourth_year" : String) ≠ "third_year" := by
  refine ⟨by decide, by decide, by decide⟩

/-- C5 amended: `detect_student_year` always returns one of the four
labels; `{"CS 421"} ↦ fourth_year`, `{} ↦ first_year`,
`{"CS 124","CS 128","MATH 221"} ↦ second_year`; two or more completed
third-year milestones always yield `fourth_year`; and exactly one
completed third-year milestone yields `third_year` provided the capstone
`CS 421` is not among the completed courses. -/
theorem detect_student_year_spec :
    (∀ completed : List String,
      detect_student_year completed ∈
        ["first_year", "second_year", "third_year", "fourth_year"]) ∧
    detect_student_year ["CS 421"] = "fourth_year" ∧
    detect_student_year [] = "first_year" ∧
    detect_student_year ["CS 124", "CS 128", "MATH 221"] = "second_year" ∧
    (∀ completed : List String,
      2 ≤ milestoneCount (completed.map normalize_course_code)
          ["CS 341", "CS 357", "CS 374"] →
      detect_student_year completed = "fourth_year") ∧
    (∀ completed : List String,
      milestoneCount (completed.map normalize_course_code)
          ["CS 341", "CS 357", "CS 374"] = 1 →
      (completed.map normalize_course_code).contains
          (normalize_course_code "CS 421") = false →
      detect_student_year completed = "third_year") := by
  refine ⟨?_, by decide, by decide, by decide, ?_, ?_⟩
  · intro completed
    simp only [detect_student_year]
    split_ifs <;> decide
  · intro completed h
    simp only [detect_student_year]
    split_ifs <;> first | rfl | omega
  · intro completed h1 h421
    simp only [detect_student_year]
    split_ifs <;>
      first
      | rfl
      | omega
      | exact absurd (by assumption) (by rw [h421]; simp)

/-- Witness for C5: two third-year milestones give `fourth_year`; a single
one (without the capstone) gives `third_year`. -/
theorem detect_student_year_spec_witness :
    detect_student_year ["CS 341", "CS 357"] = "fourth_year" ∧
    detect_student_year ["CS 341"] = "third_year" :=
  ⟨detect_student_year_spec.2.2.2.2.1 ["CS 341", "CS 357"] (by decide),
   detect_student_year_spec.2.2.2.2.2 ["CS 341"] (by decide) (by decide)⟩

/-! ### C7: additive tag-match boosts -/

/-- C7 counterexample: in the gened recommender a single matched category
is boosted by `0.15`, not `0.2` — `gened_pref_boost ["HUM"] "HUM"` is
`3/20 ≠ (1/5) * 1`. -/
theorem gened_boost_not_point_two_counterexample :
    gened_pref_boost ["HUM"] "HUM" = 3 / 20 ∧ (3 / 20 : ℚ) ≠ (1 / 5) * 1 := by
  constructor
  · have h : (["HUM"].countP
        (fun pref => containsChars (pyUpper pref).data (pyUpper "HUM").data)) = 1 := by
      decide
    rw [gened_pref_boost]
    simp [h]
  · norm_num

/-- C7 amended: the club recommender's tag-match boost is
`0.2 ×` (count of merged-tag substring matches in the record's lowercased
category text) and is added to the base cosine-similarity score (together
with the avoidance penalty); the gened recommender's category-match boost
has the same additive substring-count form but with coefficient `0.15`. -/
theorem tag_match_boost_spec :
    (∀ (merged_tags : List String) (clean_tags : String), merged_tags ≠ [] →
      club_tag_boost merged_tags clean_tags =
        (1 / 5) * (merged_tags.countP
          (fun tag => containsChars (pyLower tag).toList (pyLower clean_tags).toList) : ℚ)) ∧
    (∀ (sim : ℚ) (merged avoid : List String) (ct : String),
      club_record_score sim merged avoid ct =
        sim + club_tag_boost merged ct + club_tag_penalty avoid ct) ∧
    (∀ (prefs : List String) (gened : String), prefs ≠ [] →
      gened_pref_boost prefs gened =
        (3 / 20) * (prefs.countP
          (fun pref => containsChars (pyUpper pref).toList (pyUpper gened).toList) : ℚ)) ∧
    (∀ (sim gpa min_gpa : ℚ) (prefs : List String) (gened : String)
        (avoid : List String) (subject : String),
      gened_record_score sim gpa min_gpa prefs gened avoid subject =
        sim + gened_gpa_boost gpa min_gpa + gened_pref_boost prefs gened +
          gened_subject_penalty avoid subject) := by
  refine ⟨?_, fun _ _ _ _ => rfl, ?_, fun _ _ _ _ _ _ _ => rfl⟩
  · intro merged ct h
    rw [club_tag_boost, if_pos h]
  · intro prefs g h
    rw [gened_pref_boost, if_pos h]

/-- Witness for C7 at one matching tag / one matching category. -/
theorem tag_match_boost_spec_witness :
    club_tag_boost ["Technology"] "technology business" =
      (1 / 5) * ((["Technology"].countP
        (fun tag => containsChars (pyLower tag).toList
          (pyLower "technology business").toList)) : ℚ) ∧
    gened_pref_boost ["HUM"] "HUM" =
      (3 / 20) * ((["HUM"].countP
        (fun pref => containsChars (pyUpper pref).toList (pyUpper "HUM").toList)) : ℚ) :=
  ⟨tag_match_boost_spec.1 ["Technology"] "technology business" (by decide),
   tag_match_boost_spec.2.2.1 ["HUM"] "HUM" (by decide)⟩

/-! ### C8: the typo corrector -/

theorem extractOneModel_isSome (w : String) (v : List String) (hv : v ≠ []) :
    (extractOneModel w v).isSome = true := by
  cases v with
  | nil => exact absurd rfl hv
  | cons a as =>
    simp only [extractOneModel]
    split <;> rfl

theorem fixTypoTokens_of_total
    (eo : String → List String → Option (String × Nat)) (vocab : List String)
    (htot : ∀ w, (eo w vocab).isSome = true) :
    ∀ items : List String,
      fixTypoTokens eo vocab items =
        some (items.filterMap (fun w =>
          if pyStrip w ≠ "" then
            some (match eo w vocab with
                  | some (m, score) => if 70 < score then m else w
                  | none => w)
          else none)) := by
  intro items
  induction items with
  | nil => simp [fixTypoTokens]
  | cons w rest ih =>
    simp only [fixTypoTokens, List.filterMap_cons]
    by_cases hw : pyStrip w ≠ ""
    · simp only [if_pos hw]
      cases heo : eo w vocab with
      | none => exact absurd (heo ▸ htot w) (by simp)
      | some p =>
        cases p with
        | mk m score => rw [ih]
    · simp only [if_neg hw, ih]

/-- C8 counterexample: with an empty vocabulary and the non-empty token
`"hello"`, the corrector does *not* return the input unchanged — the
`match, score = process.extractOne(word, vocab)` unpacking of
`fuzzywuzzy`'s `None` reply raises a `TypeError` (modelled as `none`). -/
theorem fix_typo_empty_vocab_counterexample :
    fix_typo_list extractOneModel ["hello"] [] = none ∧
    fix_typo_list extractOneModel ["hello"] [] ≠ some ["hello"] := by
  refine ⟨by decide, by decide⟩

/-- C8 amended: for *any* fuzzy matcher that answers every query on the
given vocabulary (as `fuzzywuzzy.process.extractOne` does whenever the
vocabulary is non-empty), the corrector lowercases the tokens, drops the
empty/whitespace-only ones, replaces each remaining token by the
matcher's reply exactly when its score exceeds 70 and keeps the token
unchanged otherwise.  On an empty vocabulary it does *not* degrade
gracefully: processing any non-empty token fails (see the
counterexample). -/
theorem fix_typo_spec (extractOne : String → List String → Option (String × Nat))
    (vocab tokens : List String)
    (htot : ∀ w, (extractOne w vocab).isSome = true) :
    fix_typo_list extractOne tokens vocab =
      some ((tokens.map pyLower).filterMap (fun w =>
        if pyStrip w ≠ "" then
          some (match extractOne w vocab with
                | some (m, score) => if 70 < score then m else w
                | none => w)
        else none)) :=
  fixTypoTokens_of_total extractOne vocab htot (tokens.map pyLower)

/-- Witness for C8 on vocabulary `["hi"]` and tokens `["Hi", " "]`:
the blank token is dropped and `"Hi"` is lowercased and corrected to the
vocabulary entry `"hi"` (modelled exact-match score 100 > 70). -/
theorem fix_typo_spec_witness :
    fix_typo_list extractOneModel ["Hi", " "] ["hi"] =
      some (((["Hi", " "].map pyLower)).filterMap (fun w =>
        if pyStrip w ≠ "" then
          some (match extractOneModel w ["hi"] with
                | some (m, score) => if 70 < score then m else w
                | none => w)
        else none)) :=
  fix_typo_spec extractOneModel ["hi"] ["Hi", " "]
    (fun w => extractOneModel_isSome w ["hi"] (by decide))

/-! ### C2/C10 machinery: properties of the MMR loop -/

theorem argmaxPos_lt_length : ∀ (l : List ℚ), l ≠ [] → argmaxPos l < l.length
  | [], h => absurd rfl h
  | x :: xs, _ => by
    rw [argmaxPos]
    by_cases hxs : xs = []
    · rw [if_pos hxs]
      simp
    · rw [if_neg hxs]
      have ih := argmaxPos_lt_length xs hxs
      split
      · exact Nat.succ_lt_succ ih
      · simp

theorem getD_not_mem_eraseIdx :
    ∀ (l : List Nat) (i : Nat), l.Nodup → i < l.length →
      l.getD i 0 ∉ l.eraseIdx i
  | a :: as, 0, h, _ => by
    simpa using (List.nodup_cons.mp h).1
  | a :: as, i + 1, h, hi => by
    have hi' : i < as.length := by simpa using hi
    have hnd := List.nodup_cons.mp h
    simp only [List.getD_cons_succ, List.eraseIdx_cons_succ, List.mem_cons, not_or]
    refine ⟨?_, getD_not_mem_eraseIdx as i hnd.2 hi'⟩
    intro heq
    exact hnd.1 (heq ▸ getD_mem as i 0 hi')

theorem nodup_eraseIdx_eq_filter :
    ∀ (l : List Nat) (i : Nat), l.Nodup → i < l.length →
      l.eraseIdx i = l.filter (fun x => x ≠ l.getD i 0)
  | a :: as, 0, h, _ => by
    have hnd := List.nodup_cons.mp h
    simp only [List.eraseIdx_cons_zero, List.getD_cons_zero, List.filter_cons]
    rw [if_neg (by simp)]
    exact (List.filter_eq_self.mpr (fun x hx => by
      simp only [ne_eq, decide_eq_true_eq]
      exact fun hxa => hnd.1 (hxa ▸ hx))).symm
  | a :: as, i + 1, h, hi => by
    have hi' : i < as.length := by simpa using hi
    have hnd := List.nodup_cons.mp h
    simp only [List.eraseIdx_cons_succ, List.getD_cons_succ, List.filter_cons]
    rw [if_pos (by
      simp only [ne_eq, decide_eq_true_eq]
      intro heq
      exact hnd.1 (heq ▸ getD_mem as i 0 hi'))]
    rw [nodup_eraseIdx_eq_filter as i hnd.2 hi']

theorem mmrLoop_invariant (scores : List ℚ) (sim : Nat → Nat → ℚ) (lam : ℚ)
    (topk : Nat) :
    ∀ (fuel : Nat) (selected candidates : List Nat),
      selected.Nodup → candidates.Nodup →
      (∀ c ∈ candidates, c ∉ selected) →
      (mmrLoop scores sim lam topk fuel selected candidates).Nodup ∧
      (∀ x ∈ mmrLoop scores sim lam topk fuel selected candidates,
        x ∈ selected ∨ x ∈ candidates) ∧
      (mmrLoop scores sim lam topk fuel selected candidates).length ≤
        max topk selected.length := by
  intro fuel
  induction fuel with
  | zero =>
    intro selected candidates hs _ _
    rw [mmrLoop]
    exact ⟨hs, fun x hx => Or.inl hx, le_max_of_le_right le_rfl⟩
  | succ fuel ih =>
    intro selected candidates hs hc hd
    simp only [mmrLoop]
    by_cases hcond : selected.length < topk ∧ candidates ≠ []
    · rw [if_pos hcond]
      obtain ⟨hlen, hne⟩ := hcond
      set b := argmaxPos (candidates.map (mmrObjective scores sim lam selected)) with hb
      have hblt : b < candidates.length := by
        have := argmaxPos_lt_length
          (candidates.map (mmrObjective scores sim lam selected)) (by simpa using hne)
        simpa [hb] using this
      set bc := candidates.getD b 0 with hbc
      have hbcmem : bc ∈ candidates := getD_mem _ _ _ hblt
      have hs' : (selected ++ [bc]).Nodup := by
        rw [List.nodup_append]
        exact ⟨hs, List.nodup_singleton bc,
          by simp only [List.disjoint_singleton]; exact hd bc hbcmem⟩
      have hc' : (candidates.eraseIdx b).Nodup :=
        (List.eraseIdx_sublist candidates b).nodup hc
      have hd' : ∀ c ∈ candidates.eraseIdx b, c ∉ selected ++ [bc] := by
        intro c hcmem
        simp only [List.mem_append, List.mem_singleton, not_or]
        refine ⟨hd c (List.mem_of_mem_eraseIdx hcmem), ?_⟩
        intro hceq
        rw [hceq, hbc] at hcmem
        exact getD_not_mem_eraseIdx candidates b hc hblt hcmem
      obtain ⟨ind, imem, ilen⟩ := ih (selected ++ [bc]) (candidates.eraseIdx b) hs' hc' hd'
      refine ⟨ind, ?_, ?_⟩
      · intro x hx
        rcases imem x hx with hx' | hx'
        · rcases List.mem_append.mp hx' with hx'' | hx''
          · exact Or.inl hx''
          · exact Or.inr (by simpa using (List.mem_singleton.mp hx'') ▸ hbcmem)
        · exact Or.inr (List.mem_of_mem_eraseIdx hx')
      · have h1 : max topk (selected ++ [bc]).length = topk := by
          rw [List.length_append]
          exact Nat.max_eq_left (by simpa using hlen)
        have h2 : max topk selected.length = topk :=
          Nat.max_eq_left (Nat.le_of_lt hlen)
        rw [h1] at ilen
        rw [h2]
        exact ilen
    · rw [if_neg hcond]
      exact ⟨hs, fun x hx => Or.inl hx, le_max_of_le_right le_rfl⟩

/-- Shared wrapper: on a non-empty score vector `mmr_diversify` succeeds,
and its output has no duplicates, length at most `max topk 1`, and only
in-range candidate indices. -/
theorem mmr_diversify_some (scores : List ℚ) (sim : Nat → Nat → ℚ)
    (topk : Nat) (lam : ℚ) (hs : scores ≠ []) :
    ∃ l, mmr_diversify scores sim topk lam = some l ∧ l.Nodup ∧
      l.length ≤ max topk 1 ∧ ∀ x ∈ l, x < scores.length := by
  have hfirst : argmaxPos scores < scores.length := argmaxPos_lt_length scores hs
  have hinv := mmrLoop_invariant scores sim lam topk topk [argmaxPos scores]
    ((List.range scores.length).filter (fun c => c ≠ argmaxPos scores))
    (List.nodup_singleton _)
    ((List.nodup_range _).filter _)
    (by
      intro c hcm
      have := List.of_mem_filter hcm
      simpa using (by simpa using this : c ≠ argmaxPos scores))
  obtain ⟨hnd, hmem, hlen⟩ := hinv
  refine ⟨_, ?_, hnd, by simpa using hlen, ?_⟩
  · rw [mmr_diversify, if_neg hs]
  · intro x hx
    rcases hmem x hx with hx' | hx'
    · simpa using (List.mem_singleton.mp hx') ▸ hfirst
    · exact List.mem_range.mp (List.mem_of_mem_filter hx')

theorem mmrObjective_one (scores : List ℚ) (sim : Nat → Nat → ℚ)
    (selected : List Nat) (c : Nat) :
    mmrObjective scores sim 1 selected c = scores.getD c 0 := by
  simp [mmrObjective]

theorem topkGreedy_nil (scores : List ℚ) : ∀ k, topkGreedy scores k [] = []
  | 0 => rfl
  | _ + 1 => rfl

theorem mmrLoop_one (scores : List ℚ) (sim : Nat → Nat → ℚ) (topk : Nat) :
    ∀ (fuel : Nat) (selected candidates : List Nat),
      mmrLoop scores sim 1 topk fuel selected candidates =
        selected ++ topkGreedy scores (min fuel (topk - selected.length)) candidates := by
  intro fuel
  induction fuel with
  | zero =>
    intro sel cands
    rw [mmrLoop]
    simp [topkGreedy]
  | succ fuel ih =>
    intro sel cands
    simp only [mmrLoop]
    by_cases hcond : sel.length < topk ∧ cands ≠ []
    · rw [if_pos hcond]
      obtain ⟨hlen, hne⟩ := hcond
      obtain ⟨c, cs, rfl⟩ := List.exists_cons_of_ne_nil hne
      have hmap : (c :: cs).map (mmrObjective scores sim 1 sel) =
          (c :: cs).map (fun i => scores.getD i 0) :=
        List.map_congr_left (fun i _ => mmrObjective_one scores sim sel i)
      rw [hmap, ih]
      have hmin : min (fuel + 1) (topk - sel.length) =
          min fuel (topk - (sel.length + 1)) + 1 := by omega
      rw [hmin, topkGreedy]
      simp
    · rw [if_neg hcond]
      by_cases hlen : sel.length < topk
      · have hc : cands = [] := by tauto
        rw [hc, topkGreedy_nil]
        simp
      · have h0 : topk - sel.length = 0 := by omega
        rw [h0]
        simp [topkGreedy]

theorem map_getD_range (l : List ℚ) :
    (List.range l.length).map (fun i => l.getD i 0) = l := by
  apply List.ext_getElem (by simp)
  intro i h1 h2
  simp only [List.getElem_map, List.getElem_range]
  exact getD_of_lt l i 0 h2

theorem getD_range (n i : Nat) (h : i < n) : (List.range n).getD i 0 = i := by
  rw [getD_of_lt _ _ _ (by simpa using h)]
  simp

theorem mmr_diversify_lam_one (scores : List ℚ) (sim : Nat → Nat → ℚ)
    (topk : Nat) (hs : scores ≠ []) (hk : 1 ≤ topk) :
    mmr_diversify scores sim topk 1 =
      some (topkGreedy scores topk (List.range scores.length)) := by
  have hn : 0 < scores.length := List.length_pos.mpr hs
  have hfirst : argmaxPos scores < scores.length := argmaxPos_lt_length scores hs
  have hfirst' : argmaxPos scores < (List.range scores.length).length := by
    simpa using hfirst
  rw [mmr_diversify, if_neg hs]
  congr 1
  rw [mmrLoop_one]
  obtain ⟨k', rfl⟩ : ∃ k', topk = k' + 1 := ⟨topk - 1, by omega⟩
  have hrne : List.range scores.length ≠ [] := by
    simpa using Nat.pos_iff_ne_zero.mp hn
  obtain ⟨y, ys, hys⟩ := List.exists_cons_of_ne_nil hrne
  rw [hys, topkGreedy, ← hys, map_getD_range, getD_range _ _ hfirst,
    nodup_eraseIdx_eq_filter _ _ (List.nodup_range _) hfirst',
    getD_range _ _ hfirst]
  simp only [List.singleton_append, List.length_singleton]
  have hmin : min (k' + 1) (k' + 1 - 1) = k' := by omega
  rw [hmin]

/-! ### C2: the MMR diversifier -/

/-- C2 counterexample: the source appends the highest-relevance candidate
*before* checking `topk`, so with requested `k = 0` (and a single
candidate of score 1) it returns one index, violating "length at most k".
-/
theorem mmr_topk_zero_counterexample :
    mmr_diversify [1] (fun _ _ => 0) 0 (7 / 10) = some [0] ∧
    ¬ ([0] : List Nat).length ≤ 0 := by
  refine ⟨by decide, by decide⟩

/-- C2 amended: for every non-empty score vector, similarity oracle,
requested `k ≥ 1` and any `λ` (in particular `λ ∈ [0,1]`), the MMR
diversifier succeeds and returns candidate indices with no duplicates,
length at most `k`, all within range; and at `λ = 1` the returned list is
exactly the plain top-`k`-by-relevance selection with ties broken by the
lowest candidate index (first-seen-wins).  For `k = 0` the bound fails
(see the counterexample): the first pick is made unconditionally. -/
theorem mmr_diversify_spec (scores : List ℚ) (sim : Nat → Nat → ℚ)
    (topk : Nat) (lam : ℚ) (hs : scores ≠ []) (hk : 1 ≤ topk) :
    ∃ l, mmr_diversify scores sim topk lam = some l ∧ l.Nodup ∧
      l.length ≤ topk ∧ (∀ x ∈ l, x < scores.length) ∧
      (lam = 1 → l = topkGreedy scores topk (List.range scores.length)) := by
  obtain ⟨l, hl, hnd, hlen, hrange⟩ := mmr_diversify_some scores sim topk lam hs
  refine ⟨l, hl, hnd, by omega, hrange, ?_⟩
  rintro rfl
  have := mmr_diversify_lam_one scores sim topk hs hk
  rw [hl] at this
  exact Option.some_injective _ this

/-- Witness for C2 at scores `[1, 2]`, `k = 1`, `λ = 1`. -/
theorem mmr_diversify_spec_witness :
    ∃ l, mmr_diversify [1, 2] (fun _ _ => 0) 1 1 = some l ∧ l.Nodup ∧
      l.length ≤ 1 ∧ (∀ x ∈ l, x < ([1, 2] : List ℚ).length) ∧
      ((1 : ℚ) = 1 → l = topkGreedy [1, 2] 1 (List.range ([1, 2] : List ℚ).length)) :=
  mmr_diversify_spec [1, 2] (fun _ _ => 0) 1 1 (by decide) (by decide)

/-! ### C6: monotonicity of the year classifier -/

/-- Indicator (0 or 1) of the capstone `CS 421` being among the normalized
completed courses (the first test of `detect_student_year`). -/
def has421 (L : List String) : Nat :=
  if (L.map normalize_course_code).contains (normalize_course_code "CS 421") = true
  then 1 else 0

theorem contains_norm_mono {S T : List String} (h : ∀ c ∈ S, c ∈ T) (x : String)
    (hx : (S.map normalize_course_code).contains x = true) :
    (T.map normalize_course_code).contains x = true := by
  rw [List.contains_iff_exists_mem_beq] at hx ⊢
  obtain ⟨a, ha, hbeq⟩ := hx
  obtain ⟨c, hc, rfl⟩ := List.mem_map.mp ha
  exact ⟨normalize_course_code c, List.mem_map_of_mem _ (h c hc), hbeq⟩

theorem has421_mono {S T : List String} (h : ∀ c ∈ S, c ∈ T) :
    has421 S ≤ has421 T := by
  rw [has421, has421]
  split_ifs with h1 h2
  · exact le_rfl
  · exact absurd (contains_norm_mono h _ h1) h2
  · exact Nat.zero_le _
  · exact le_rfl

theorem milestoneCount_mono {S T : List String} (h : ∀ c ∈ S, c ∈ T)
    (ms : List String) :
    milestoneCount (S.map normalize_course_code) ms ≤
      milestoneCount (T.map normalize_course_code) ms := by
  apply List.countP_mono_left
  intro m _ hm
  exact contains_norm_mono h _ hm

/-- The inferred rank as a formula over the milestone counts: 4 iff the
capstone is present or two third-year milestones are, 3 iff additionally …,
matching the cascade of `detect_student_year`. -/
theorem yearRank_detect (L : List String) :
    yearRank (detect_student_year L) =
      if 1 ≤ has421 L ∨
         2 ≤ milestoneCount (L.map normalize_course_code)
             ["CS 341", "CS 357", "CS 374"] then 4
      else if 1 ≤ milestoneCount (L.map normalize_course_code)
             ["CS 341", "CS 357", "CS 374"] ∨
         2 ≤ milestoneCount (L.map normalize_course_code)
             ["CS 225", "CS 233", "CS 361"] ∨
         (1 ≤ milestoneCount (L.map normalize_course_code)
             ["CS 225", "CS 233", "CS 361"] ∧
          2 ≤ milestoneCount (L.map normalize_course_code)
             ["MATH 241", "MATH 257", "PHYS 211", "PHYS 212"]) then 3
      else if 1 ≤ milestoneCount (L.map normalize_course_code)
             ["CS 225", "CS 233", "CS 361"] ∨
         1 ≤ milestoneCount (L.map normalize_course_code)
             ["MATH 241", "MATH 257", "PHYS 211", "PHYS 212"] ∨
         (2 ≤ milestoneCount (L.map normalize_course_code)
             ["CS 124", "CS 128", "CS 173"] ∧
          1 ≤ milestoneCount (L.map normalize_course_code)
             ["MATH 221", "MATH 231"]) then 2
      else 1 := by
  simp only [detect_student_year, has421]
  split_ifs <;> first | decide | omega

/-- C6: `detect_student_year` is monotone with respect to inclusion of the
completed-course lists: adding completed courses never lowers the inferred
standing under `first_year < second_year < third_year < fourth_year`. -/
theorem detect_student_year_monotone (S T : List String) (h : ∀ c ∈ S, c ∈ T) :
    yearRank (detect_student_year S) ≤ yearRank (detect_student_year T) := by
  have h421 := has421_mono h
  have h3 := milestoneCount_mono h ["CS 341", "CS 357", "CS 374"]
  have h2 := milestoneCount_mono h ["CS 225", "CS 233", "CS 361"]
  have hmp := milestoneCount_mono h ["MATH 241", "MATH 257", "PHYS 211", "PHYS 212"]
  have h1c := milestoneCount_mono h ["CS 124", "CS 128", "CS 173"]
  have h1m := milestoneCount_mono h ["MATH 221", "MATH 231"]
  rw [yearRank_detect S, yearRank_detect T]
  split_ifs <;> omega

/-- Witness for C6: `["CS 225"] ⊆ ["CS 225", "CS 341"]`. -/
theorem detect_student_year_monotone_witness :
    yearRank (detect_student_year ["CS 225"]) ≤
      yearRank (detect_student_year ["CS 225", "CS 341"]) :=
  detect_student_year_monotone ["CS 225"] ["CS 225", "CS 341"] (by decide)

/-! ### C10: zero-similarity exclusion after STEP 4 -/

/-- C10: with a non-empty interests string and at least one eligible
course of strictly positive similarity, the recommender's non-zero filter
makes every reported `interest_score` strictly positive (zero-similarity
courses are excluded before MMR, regardless of their rule boosts); and
when every eligible course has zero similarity the filter excludes
nothing. -/
theorem nonzero_interest_filter_spec (interests : String)
    (iScores boosted : List ℚ) (sim : Nat → Nat → ℚ) (topk : Nat) (lam : ℚ)
    (hne : interests ≠ "") (hlen : boosted.length = iScores.length)
    (hpos : ∃ s ∈ iScores, 0 < s) :
    (∃ out, reported_interest_scores interests iScores boosted sim topk lam =
        some out ∧ ∀ x ∈ out, 0 < x) ∧
    (∀ iS bS : List ℚ, (∀ s ∈ iS, s = 0) →
      step4_filter interests iS bS = (iS, bS)) := by
  constructor
  · obtain ⟨s, hsmem, hspos⟩ := hpos
    have hcond : interests ≠ "" ∧ 0 < iScores.countP (fun s => decide (0 < s)) :=
      ⟨hne, List.countP_pos_iff.mpr ⟨s, hsmem, by simpa using hspos⟩⟩
    obtain ⟨F, hF⟩ :
        ∃ F, F = (iScores.zip boosted).filter (fun p => decide (0 < p.1)) :=
      ⟨_, rfl⟩
    have hstep : step4_filter interests iScores boosted =
        (F.map Prod.fst, F.map Prod.snd) := by
      rw [step4_filter, if_pos hcond, ← hF]
    -- the filtered pair list is non-empty
    obtain ⟨i, hilt, higet⟩ := List.mem_iff_getElem.mp hsmem
    have hzlen : (iScores.zip boosted).length = iScores.length := by
      simp [List.length_zip, hlen]
    have hizip : i < (iScores.zip boosted).length := by omega
    have hpair : (iScores.zip boosted)[i] ∈ F := by
      rw [hF, List.mem_filter]
      refine ⟨List.getElem_mem hizip, ?_⟩
      rw [List.getElem_zip]
      simpa [higet] using hspos
    have hBne : F.map Prod.snd ≠ [] := by
      simpa using List.ne_nil_of_mem hpair
    obtain ⟨idxs, hmmr, _, _, hrange⟩ :=
      mmr_diversify_some (F.map Prod.snd) sim
        (min topk (F.map Prod.snd).length) lam hBne
    refine ⟨idxs.map (fun j => (F.map Prod.fst).getD j 0), ?_, ?_⟩
    · simp only [reported_interest_scores, hstep]
      rw [hmmr]
    · intro x hx
      obtain ⟨j, hj, rfl⟩ := List.mem_map.mp hx
      have hjlt : j < (F.map Prod.fst).length := by
        have := hrange j hj
        simp only [List.length_map] at this ⊢
        exact this
      have hmem := getD_mem _ j (0 : ℚ) hjlt
      obtain ⟨p, hpmem, hpeq⟩ := List.mem_map.mp hmem
      rw [hF] at hpmem
      have := (List.mem_filter.mp hpmem).2
      rw [hpeq] at this
      simpa using this
  · intro iS bS hz
    rw [step4_filter, if_neg]
    rintro ⟨-, hcnt⟩
    rw [List.countP_eq_zero.mpr] at hcnt
    · exact absurd hcnt (by omega)
    · intro a ha
      simp [hz a ha]

/-- Witness for C10 at interests `"ml"`, interest scores `[0, 1]`, boosted
scores `[2, 3]`. -/
theorem nonzero_interest_filter_spec_witness :
    (∃ out, reported_interest_scores "ml" [0, 1] [2, 3] (fun _ _ => 0) 5 (7 / 10) =
        some out ∧ ∀ x ∈ out, 0 < x) ∧
    (∀ iS bS : List ℚ, (∀ s ∈ iS, s = 0) →
      step4_filter "ml" iS bS = (iS, bS)) :=
  nonzero_interest_filter_spec "ml" [0, 1] [2, 3] (fun _ _ => 0) 5 (7 / 10)
    (by decide) (by decide) ⟨1, by simp, by norm_num⟩

end Rec
